import Mathlib

/-!
Shallow embedding of `src/ode_solver.py` (class `Solver`): numerical ODE
integration by Euler, second-order Runge-Kutta (with Heun / Ralston /
midpoint wrappers), classic fourth-order Runge-Kutta, and the `compare`
orchestration method.  Python floats are modelled as exact rationals `ℚ`;
Python exceptions are modelled with `Except PyErr`.
-/

namespace NumericalODE

/-- Python exceptions surfaced by the solver, as an error type.
`zeroDivision` models `ZeroDivisionError`; `unknownMethod l` models the
`Exception(f"There is no method called '...'")` raised by `compare`
for label `l`; `typeError l` models the `TypeError` raised when
`plt.plot(*result, ...)` tries to unpack a non-iterable result of
evaluating label `l`; `attributeError l` models `AttributeError` (and any
other failure of `eval('self.' + l)` on a label form outside the modelled
fragment). -/
inductive PyErr where
  | zeroDivision
  | unknownMethod (label : String)
  | typeError (label : String)
  | attributeError (label : String)
deriving Repr, DecidableEq

/-- The `Solver` object: `f` is the derivative function, `x0`/`y0` are
`boundary[0]`/`boundary[1]`, `final_x` is the last x value, `h` the nominal
step size (`self.h`). -/
structure Solver where
  f : ℚ → ℚ → ℚ
  x0 : ℚ
  y0 : ℚ
  final_x : ℚ
  h : ℚ

/-- `np.linspace(a, b, n)`: `n` evenly spaced samples from `a` to `b`
inclusive.  For `n ≥ 2` the spacing is `(b - a)/(n - 1)`; `n = 1` gives
`[a]`; `n = 0` gives the empty array.  (For `n ≥ 2`, `((n : ℚ) - 1)`
equals the cast of the natural number `n - 1`.) -/
def linspace (a b : ℚ) (n : ℕ) : List ℚ :=
  if n = 0 then []
  else if n = 1 then [a]
  else (List.range n).map (fun (i : ℕ) => a + (i : ℚ) * ((b - a) / ((n : ℚ) - 1)))

/-- The sample count `int(np.abs((self.final_x - self.boundary[0])/self.h) + 1)`
shared by `euler`, `runge2nd` and `classic4th` (Python `int()` truncates;
the argument is nonnegative, so truncation is the floor). -/
def nSamples (s : Solver) : ℕ :=
  (⌊|(s.final_x - s.x0) / s.h| + 1⌋).toNat

/-- The loop `for i in range(1, len(x)): y[i] = ...`: given the x samples
and `y[0]`, produce the y samples, each computed from its predecessor and
the previous x sample by the step function `g`. -/
def iterY (g : ℚ → ℚ → ℚ) : List ℚ → ℚ → List ℚ
  | [], _ => []
  | [_], y0 => [y0]
  | x :: x2 :: rest, y0 => y0 :: iterY g (x2 :: rest) (g x y0)

/-- Loop body of `euler`: `y[i] = y[i-1] + self.f(x[i-1], y[i-1]) * self.h`. -/
def eulerStep (s : Solver) (xi yi : ℚ) : ℚ :=
  yi + s.f xi yi * s.h

/-- `Solver.euler`.  Dividing by `self.h = 0` in the sample count raises
`ZeroDivisionError`. -/
def euler (s : Solver) : Except PyErr (List ℚ × List ℚ) :=
  if s.h = 0 then .error .zeroDivision
  else
    let x := linspace s.x0 s.final_x (nSamples s)
    .ok (x, iterY (eulerStep s) x s.y0)

/-- Loop body of `runge2nd`, with `a1 = 1 - a2` and `p = q = 1/(2*a2)`
(the source computes `a1`, `p`, `q` once before the loop; they are pure,
so recomputing them per step is the same function):
`y[i] = y[i-1] + (a1*f(x[i-1],y[i-1])
        + a2*f(x[i-1] + p*h, y[i-1] + q*f(x[i-1],y[i-1])*h)) * h`. -/
def runge2ndStep (s : Solver) (a2 : ℚ) (xi yi : ℚ) : ℚ :=
  let a1 := 1 - a2
  let p := 1 / (2 * a2)
  let q := p
  yi + (a1 * s.f xi yi + a2 * s.f (xi + p * s.h) (yi + q * s.f xi yi * s.h)) * s.h

/-- `Solver.runge2nd(a2)`.  `p = 1/(2*a2)` is computed before the sample
count, so `a2 = 0` raises `ZeroDivisionError` first; then `h = 0` raises
`ZeroDivisionError` in the sample count. -/
def runge2nd (s : Solver) (a2 : ℚ) : Except PyErr (List ℚ × List ℚ) :=
  if a2 = 0 then .error .zeroDivision
  else if s.h = 0 then .error .zeroDivision
  else
    let x := linspace s.x0 s.final_x (nSamples s)
    .ok (x, iterY (runge2ndStep s a2) x s.y0)

/-- `Solver.heun`: `return self.runge2nd(1/2)`. -/
def heun (s : Solver) : Except PyErr (List ℚ × List ℚ) :=
  runge2nd s (1/2)

/-- `Solver.ralston`: `return self.runge2nd(2/3)`. -/
def ralston (s : Solver) : Except PyErr (List ℚ × List ℚ) :=
  runge2nd s (2/3)

/-- `Solver.midpoint`: `return self.runge2nd(1)`. -/
def midpoint (s : Solver) : Except PyErr (List ℚ × List ℚ) :=
  runge2nd s 1

/-- Loop body of `classic4th`:
`k1 = f(x,y); k2 = f(x + h/2, y + k1*h/2); k3 = f(x + h/2, y + k2*h/2);
 k4 = f(x + h, y + k3*h); y[i] = y[i-1] + (1/6)*(k1 + 2*k2 + 2*k3 + k4)*h`. -/
def classic4thStep (s : Solver) (xi yi : ℚ) : ℚ :=
  let k1 := s.f xi yi
  let k2 := s.f (xi + s.h/2) (yi + k1*s.h/2)
  let k3 := s.f (xi + s.h/2) (yi + k2*s.h/2)
  let k4 := s.f (xi + s.h) (yi + k3*s.h)
  yi + (1/6) * (k1 + 2*k2 + 2*k3 + k4) * s.h

/-- `Solver.classic4th`. -/
def classic4th (s : Solver) : Except PyErr (List ℚ × List ℚ) :=
  if s.h = 0 then .error .zeroDivision
  else
    let x := linspace s.x0 s.final_x (nSamples s)
    .ok (x, iterY (classic4thStep s) x s.y0)

/-! ### The `compare` method

`compare(*args)` first checks every label: `if not i.split('(')[0] in dir(self):
raise Exception(...)`.  Only then does it evaluate each label with
`eval('self.' + i)`, pass the result to `plt.plot(*result, label=i)`, and
record it in the `results` dict under the label. -/

/-- The instance attributes set in `__init__`: `f`, `boundary`, `h`, `final_x`. -/
def instanceAttrs : List String := ["f", "boundary", "h", "final_x"]

/-- The methods defined on class `Solver`. -/
def classMethods : List String :=
  ["euler", "runge2nd", "heun", "ralston", "midpoint", "classic4th", "compare"]

/-- The names every Python object inherits from `object`, as reported by
`dir()` (CPython's standard dunder attributes). -/
def objectDunders : List String :=
  ["__class__", "__delattr__", "__dict__", "__dir__", "__doc__", "__eq__",
   "__format__", "__ge__", "__getattribute__", "__getstate__", "__gt__",
   "__hash__", "__init__", "__init_subclass__", "__le__", "__lt__",
   "__module__", "__ne__", "__new__", "__reduce__", "__reduce_ex__",
   "__repr__", "__setattr__", "__sizeof__", "__str__", "__subclasshook__",
   "__weakref__"]

/-- `dir(self)` on a `Solver` instance: instance attributes, class methods
and inherited object attributes (as a list of names; `dir` returns them
sorted, but `compare` only tests membership). -/
def dirSolver : List String := instanceAttrs ++ classMethods ++ objectDunders

/-- The names of the integration operations proper (the methods other than
`compare` and the non-method attributes). -/
def integrationMethodNames : List String :=
  ["euler", "runge2nd", "heun", "ralston", "midpoint", "classic4th"]

/-- Characters of a label before the first `'('` — the char-list recursion
behind `methodName`. -/
def beforeParen : List Char → List Char
  | [] => []
  | c :: cs => if c = '(' then [] else c :: beforeParen cs

/-- `i.split('(')[0]`: the text of label `i` before the first `'('` (the
whole label when it has no `'('`). -/
def methodName (label : String) : String :=
  String.mk (beforeParen label.data)

/-- A Python value that evaluating a label can produce: a `(x, y)` pair of
sample arrays, a callable object (a bound method or the stored function
`f`) — which is not iterable, a number (`h`, `final_x`) — not iterable
either, or the two-element list `boundary`. -/
inductive PyValue where
  | pair (xy : List ℚ × List ℚ)
  | callable (name : String)
  | number (q : ℚ)
  | numList (l : List ℚ)
deriving Repr, DecidableEq

/-- `eval('self.' + label)`, modelled for the label forms the class is used
with: a zero-argument call `"m()"` of an integration method runs it (its
exception propagating), a bare name evaluates to the attribute itself — a
bound method or stored field, *not* the method's result — and any other
form is an error outside the modelled fragment (Python would raise
`AttributeError`/`SyntaxError` there). -/
def evalLabel (s : Solver) (label : String) : Except PyErr PyValue :=
  if label = "euler()" then (euler s).map .pair
  else if label = "heun()" then (heun s).map .pair
  else if label = "ralston()" then (ralston s).map .pair
  else if label = "midpoint()" then (midpoint s).map .pair
  else if label = "classic4th()" then (classic4th s).map .pair
  else if label ∈ classMethods then .ok (.callable label)
  else if label = "f" then .ok (.callable "f")
  else if label = "h" then .ok (.number s.h)
  else if label = "final_x" then .ok (.number s.final_x)
  else if label = "boundary" then .ok (.numList [s.x0, s.y0])
  else .error (.attributeError label)

/-- `plt.plot(*result, label=i)`: the star-unpacking succeeds only when
`result` is iterable — a pair of sample arrays or the `boundary` list;
unpacking a bound method, a function or a number raises `TypeError`. -/
def plotArgs (label : String) (v : PyValue) : Except PyErr Unit :=
  match v with
  | .pair _ => .ok ()
  | .numList _ => .ok ()
  | _ => .error (.typeError label)

/-- The first `for` loop of `compare`: check each label's method name
against `dir(self)`, raising on the first unknown one. -/
def validateLabels : List String → Except PyErr Unit
  | [] => .ok ()
  | i :: rest =>
    if methodName i ∈ dirSolver then validateLabels rest
    else .error (.unknownMethod i)

/-- The second `for` loop of `compare`: evaluate each label, plot it, and
record `(label, value)` in order.  (The `results` dict is modelled as the
association list in insertion order; the claims use distinct labels.) -/
def runLabels (s : Solver) : List String → Except PyErr (List (String × PyValue))
  | [] => .ok []
  | i :: rest =>
    match evalLabel s i with
    | .error e => .error e
    | .ok v =>
      match plotArgs i v with
      | .error e => .error e
      | .ok _ =>
        match runLabels s rest with
        | .error e => .error e
        | .ok tail => .ok ((i, v) :: tail)

/-- `Solver.compare(*args)`: validate all labels first, then evaluate them. -/
def compare (s : Solver) (args : List String) :
    Except PyErr (List (String × PyValue)) :=
  match validateLabels args with
  | .error e => .error e
  | .ok _ => runLabels s args

/-- The six integration methods, `runge2nd` carrying its coefficient. -/
inductive Method where
  | euler
  | runge2nd (a2 : ℚ)
  | heun
  | ralston
  | midpoint
  | classic4th

/-- Run an integration method on a solver. -/
def Method.run : Method → Solver → Except PyErr (List ℚ × List ℚ)
  | .euler, s => NumericalODE.euler s
  | .runge2nd a2, s => NumericalODE.runge2nd s a2
  | .heun, s => NumericalODE.heun s
  | .ralston, s => NumericalODE.ralston s
  | .midpoint, s => NumericalODE.midpoint s
  | .classic4th, s => NumericalODE.classic4th s

/-- The loop body each method uses to advance `y[i-1]` to `y[i]`. -/
def Method.stepFun : Method → Solver → ℚ → ℚ → ℚ
  | .euler, s => eulerStep s
  | .runge2nd a2, s => runge2ndStep s a2
  | .heun, s => runge2ndStep s (1/2)
  | .ralston, s => runge2ndStep s (2/3)
  | .midpoint, s => runge2ndStep s 1
  | .classic4th, s => classic4thStep s

/-! ### Concrete configurations for witnesses and counterexamples -/

/-- The constant derivative `f(x, y) = 1` (so the exact solution is linear). -/
def oneF : ℚ → ℚ → ℚ := fun _ _ => 1

/-- `Solver(f = 1, boundary = [0, 0], final_x = 1, step_size = 2/5)`: the
interval has length 1, not an integer multiple of `2/5`. -/
def cfgA : Solver := ⟨oneF, 0, 0, 1, 2/5⟩

/-- `Solver(f = 1, boundary = [0, 0], final_x = 2/5, step_size = 1)`: the
interval is shorter than the step. -/
def cfgB : Solver := ⟨oneF, 0, 0, 2/5, 1⟩

/-- `Solver(f = 1, boundary = [0, 1], final_x = 1, step_size = 0)`. -/
def cfgZ : Solver := ⟨oneF, 0, 1, 1, 0⟩

/-! ### Basic lemmas about the embedding -/

theorem iterY_length (g : ℚ → ℚ → ℚ) :
    ∀ (xs : List ℚ) (c : ℚ), (iterY g xs c).length = xs.length
  | [], _ => rfl
  | [_], _ => rfl
  | x :: x2 :: rest, c => by
    simp only [iterY, List.length_cons]
    rw [iterY_length g (x2 :: rest) (g x c)]
    simp

theorem iterY_head (g : ℚ → ℚ → ℚ) :
    ∀ (xs : List ℚ) (c : ℚ), xs ≠ [] → (iterY g xs c).head? = some c
  | [], _, h => absurd rfl h
  | [_], _, _ => rfl
  | _ :: _ :: _, _, _ => rfl

theorem iterY_getD_zero (g : ℚ → ℚ → ℚ) (xs : List ℚ) (c : ℚ) (h : xs ≠ []) :
    (iterY g xs c).getD 0 0 = c := by
  cases xs with
  | nil => exact absurd rfl h
  | cons x rest => cases rest <;> rfl

theorem iterY_getD_succ (g : ℚ → ℚ → ℚ) :
    ∀ (xs : List ℚ) (c : ℚ) (i : ℕ), i + 1 < xs.length →
      (iterY g xs c).getD (i + 1) 0 = g (xs.getD i 0) ((iterY g xs c).getD i 0)
  | [], _, _, h => by simp at h
  | [_], _, _, h => by simp at h
  | x :: x2 :: rest, c, 0, _ => by
    simp only [iterY, List.getD_cons_succ, List.getD_cons_zero]
    exact iterY_getD_zero g (x2 :: rest) (g x c) (by simp)
  | x :: x2 :: rest, c, i + 1, h => by
    simp only [iterY, List.getD_cons_succ]
    exact iterY_getD_succ g (x2 :: rest) (g x c) i
      (by simpa [Nat.add_lt_add_iff_right] using h)

theorem linspace_length (a b : ℚ) (n : ℕ) : (linspace a b n).length = n := by
  rw [linspace]
  split
  · simp [*]
  · split
    · simp [*]
    · rw [List.length_map, List.length_range]

theorem linspace_getD (a b : ℚ) (n : ℕ) (hn : 2 ≤ n) (i : ℕ) (hi : i < n) :
    (linspace a b n).getD i 0 = a + (i : ℚ) * ((b - a) / ((n : ℚ) - 1)) := by
  rw [linspace, if_neg (by omega), if_neg (by omega)]
  rw [List.getD_eq_getElem _ _
    (by rw [List.length_map, List.length_range]; exact hi)]
  simp only [List.getElem_map, List.getElem_range]

theorem linspace_getD_zero (a b : ℚ) (n : ℕ) (hn : 1 ≤ n) :
    (linspace a b n).getD 0 0 = a := by
  rcases Nat.lt_or_ge n 2 with h2 | h2
  · have : n = 1 := by omega
    subst this
    rfl
  · rw [linspace_getD a b n h2 0 (by omega)]
    simp

theorem linspace_getD_last (a b : ℚ) (n : ℕ) (hn : 2 ≤ n) :
    (linspace a b n).getD (n - 1) 0 = b := by
  rw [linspace_getD a b n hn (n - 1) (by omega)]
  have hcast : ((n - 1 : ℕ) : ℚ) = (n : ℚ) - 1 := by
    have : 1 ≤ n := by omega
    push_cast [this]
    ring
  have hne : ((n : ℚ) - 1) ≠ 0 := by
    have : (2 : ℚ) ≤ (n : ℚ) := by exact_mod_cast hn
    intro hcontra
    nlinarith
  rw [hcast]
  field_simp

theorem one_le_nSamples (s : Solver) : 1 ≤ nSamples s := by
  have h0 : (0 : ℤ) ≤ ⌊|(s.final_x - s.x0) / s.h|⌋ :=
    Int.floor_nonneg.mpr (abs_nonneg _)
  unfold nSamples
  rw [Int.floor_add_one]
  omega

theorem nSamples_eq_floor_add_one (s : Solver) :
    nSamples s = (⌊|(s.final_x - s.x0) / s.h|⌋).toNat + 1 := by
  have h0 : (0 : ℤ) ≤ ⌊|(s.final_x - s.x0) / s.h|⌋ :=
    Int.floor_nonneg.mpr (abs_nonneg _)
  unfold nSamples
  rw [Int.floor_add_one]
  omega

theorem two_le_nSamples (s : Solver) (hh : s.h ≠ 0)
    (hge : |s.h| ≤ |s.final_x - s.x0|) : 2 ≤ nSamples s := by
  have hpos : (0 : ℚ) < |s.h| := abs_pos.mpr hh
  have h1 : (1 : ℚ) ≤ |(s.final_x - s.x0) / s.h| := by
    rw [abs_div, one_le_div hpos]
    exact hge
  have h2 : (1 : ℤ) ≤ ⌊|(s.final_x - s.x0) / s.h|⌋ :=
    Int.le_floor.mpr (by exact_mod_cast h1)
  unfold nSamples
  rw [Int.floor_add_one]
  omega

theorem euler_ok (s : Solver) (x y : List ℚ) (h : euler s = .ok (x, y)) :
    s.h ≠ 0 ∧ x = linspace s.x0 s.final_x (nSamples s) ∧
      y = iterY (eulerStep s) x s.y0 := by
  by_cases hh : s.h = 0
  · simp [euler, hh] at h
  · simp only [euler, if_neg hh, Except.ok.injEq, Prod.mk.injEq] at h
    exact ⟨hh, h.1.symm, by rw [← h.1]; exact h.2.symm⟩

theorem runge2nd_ok (s : Solver) (a2 : ℚ) (x y : List ℚ)
    (h : runge2nd s a2 = .ok (x, y)) :
    a2 ≠ 0 ∧ s.h ≠ 0 ∧ x = linspace s.x0 s.final_x (nSamples s) ∧
      y = iterY (runge2ndStep s a2) x s.y0 := by
  by_cases ha : a2 = 0
  · simp [runge2nd, ha] at h
  · by_cases hh : s.h = 0
    · simp [runge2nd, ha, hh] at h
    · simp only [runge2nd, if_neg ha, if_neg hh, Except.ok.injEq,
        Prod.mk.injEq] at h
      exact ⟨ha, hh, h.1.symm, by rw [← h.1]; exact h.2.symm⟩

theorem classic4th_ok (s : Solver) (x y : List ℚ)
    (h : classic4th s = .ok (x, y)) :
    s.h ≠ 0 ∧ x = linspace s.x0 s.final_x (nSamples s) ∧
      y = iterY (classic4thStep s) x s.y0 := by
  by_cases hh : s.h = 0
  · simp [classic4th, hh] at h
  · simp only [classic4th, if_neg hh, Except.ok.injEq, Prod.mk.injEq] at h
    exact ⟨hh, h.1.symm, by rw [← h.1]; exact h.2.symm⟩

/-- Every successful run produces the `linspace` grid and the `iterY`
iteration of the method's loop body. -/
theorem run_ok_shape (m : Method) (s : Solver) (x y : List ℚ)
    (h : m.run s = .ok (x, y)) :
    s.h ≠ 0 ∧ x = linspace s.x0 s.final_x (nSamples s) ∧
      y = iterY (m.stepFun s) x s.y0 := by
  cases m with
  | euler => exact euler_ok s x y h
  | runge2nd a2 =>
    obtain ⟨_, hh, hx, hy⟩ := runge2nd_ok s a2 x y h
    exact ⟨hh, hx, hy⟩
  | heun =>
    obtain ⟨_, hh, hx, hy⟩ := runge2nd_ok s (1/2) x y h
    exact ⟨hh, hx, hy⟩
  | ralston =>
    obtain ⟨_, hh, hx, hy⟩ := runge2nd_ok s (2/3) x y h
    exact ⟨hh, hx, hy⟩
  | midpoint =>
    obtain ⟨_, hh, hx, hy⟩ := runge2nd_ok s 1 x y h
    exact ⟨hh, hx, hy⟩
  | classic4th => exact classic4th_ok s x y h

theorem nSamples_cfgA : nSamples cfgA = 3 := by
  norm_num [nSamples, cfgA, abs_of_nonneg]
  rfl

theorem linspace_cfgA :
    linspace cfgA.x0 cfgA.final_x (nSamples cfgA) = [0, 1/2, 1] := by
  rw [nSamples_cfgA]
  norm_num [linspace, List.range_succ, cfgA]

theorem euler_cfgA : euler cfgA = Except.ok ([0, 1/2, 1], [0, 2/5, 4/5]) := by
  rw [euler, if_neg (by norm_num [cfgA]), linspace_cfgA]
  norm_num [iterY, eulerStep, cfgA, oneF]

theorem classic4th_cfgA :
    classic4th cfgA = Except.ok ([0, 1/2, 1], [0, 2/5, 4/5]) := by
  rw [classic4th, if_neg (by norm_num [cfgA]), linspace_cfgA]
  norm_num [iterY, classic4thStep, cfgA, oneF]

theorem nSamples_cfgB : nSamples cfgB = 1 := by
  norm_num [nSamples, cfgB, abs_of_nonneg]

theorem euler_cfgB : euler cfgB = Except.ok ([0], [0]) := by
  rw [euler, if_neg (by norm_num [cfgB]), nSamples_cfgB]
  norm_num [linspace, iterY, cfgB]

/-! ### Claims -/

/-- C1 (counterexample): on `cfgA` (interval length 1, nominal step `2/5`,
`f = 1`) the effective spacing between consecutive X samples is
`(final_x - x0)/(3 - 1) = 1/2`, yet euler advances `Y[0] = 0` to
`Y[1] = 2/5`, not to `0 + f(X[0], Y[0]) * (1/2)`: the step factor is the
nominal `h`, not the actual spacing. -/
theorem step_uses_nominal_h_cex :
    euler cfgA = Except.ok ([0, 1/2, 1], [0, 2/5, 4/5]) ∧
    ((1 : ℚ)/2 - 0) = (cfgA.final_x - cfgA.x0) / ((3 : ℚ) - 1) ∧
    ((2 : ℚ)/5 ≠ 0 + cfgA.f 0 0 * ((1 : ℚ)/2 - 0)) :=
  ⟨euler_cfgA, by norm_num [cfgA], by norm_num [cfgA, oneF]⟩

/-- C1 (amended): every integration method advances `Y[i-1]` to `Y[i]` by
its loop-body step formula, which uses the *nominal* step size `h` (for
euler, `Y[i] = Y[i-1] + f(X[i-1], Y[i-1]) * h`), not the actual spacing
`(final_x - x0)/(n-1)` between consecutive X samples; the two differ
whenever `|final_x - x0|` is not an integer multiple of `|h|`. -/
theorem step_advances_with_nominal_h (m : Method) (s : Solver)
    (x y : List ℚ) (h : m.run s = .ok (x, y)) (i : ℕ)
    (hi : i + 1 < y.length) :
    y.getD (i + 1) 0 = m.stepFun s (x.getD i 0) (y.getD i 0) ∧
    (m = Method.euler →
      y.getD (i + 1) 0
        = y.getD i 0 + s.f (x.getD i 0) (y.getD i 0) * s.h) := by
  obtain ⟨hh, hx, hy⟩ := run_ok_shape m s x y h
  have hxy : y.length = x.length := by rw [hy, iterY_length]
  have hstep : y.getD (i + 1) 0 = m.stepFun s (x.getD i 0) (y.getD i 0) := by
    rw [hy]
    exact iterY_getD_succ _ x s.y0 i (hxy ▸ hi)
  refine ⟨hstep, fun hm => ?_⟩
  subst hm
  rw [hstep]
  rfl

theorem step_advances_with_nominal_h_witness :
    Method.euler.run cfgA = Except.ok ([0, 1/2, 1], [0, 2/5, 4/5]) ∧
    (0 + 1 < ([0, (2 : ℚ)/5, 4/5] : List ℚ).length) ∧
    (([0, (2 : ℚ)/5, 4/5] : List ℚ).getD (0 + 1) 0
        = Method.euler.stepFun cfgA (([0, (1 : ℚ)/2, 1] : List ℚ).getD 0 0)
            (([0, (2 : ℚ)/5, 4/5] : List ℚ).getD 0 0) ∧
      (Method.euler = Method.euler →
        ([0, (2 : ℚ)/5, 4/5] : List ℚ).getD (0 + 1) 0
          = ([0, (2 : ℚ)/5, 4/5] : List ℚ).getD 0 0
            + cfgA.f (([0, (1 : ℚ)/2, 1] : List ℚ).getD 0 0)
                (([0, (2 : ℚ)/5, 4/5] : List ℚ).getD 0 0) * cfgA.h)) :=
  ⟨euler_cfgA, by decide,
   step_advances_with_nominal_h Method.euler cfgA _ _ euler_cfgA 0 (by decide)⟩

/-- C2 (counterexample): on `cfgA`, `|final_x - x0| / |h| = 5/2`, so the
claimed count `round(5/2) + 1 = 4`, but euler produces 3 samples:
`int()` truncates instead of rounding to nearest. -/
theorem sample_count_round_cex :
    euler cfgA = Except.ok ([0, 1/2, 1], [0, 2/5, 4/5]) ∧
    round (|cfgA.final_x - cfgA.x0| / |cfgA.h|) + 1 = (4 : ℤ) ∧
    ((([0, (1 : ℚ)/2, 1] : List ℚ).length : ℤ) ≠ 4) := by
  refine ⟨euler_cfgA, ?_, by decide⟩
  rw [round_eq]
  norm_num [cfgA, abs_of_nonneg]

/-- C2 (amended): for every integration method and configuration on which
it succeeds, the number of samples is `n = ⌊|final_x - x0| / |h|⌋ + 1`
(truncation toward zero of the nonnegative quotient, not rounding to the
nearest integer), and X and Y have that common length. -/
theorem sample_count_truncates (m : Method) (s : Solver) (x y : List ℚ)
    (h : m.run s = .ok (x, y)) :
    x.length = (⌊|s.final_x - s.x0| / |s.h|⌋).toNat + 1 ∧
      y.length = x.length := by
  obtain ⟨hh, hx, hy⟩ := run_ok_shape m s x y h
  have hlen : x.length = nSamples s := by rw [hx, linspace_length]
  constructor
  · rw [hlen, nSamples_eq_floor_add_one, abs_div]
  · rw [hy, iterY_length]

theorem sample_count_truncates_witness :
    Method.euler.run cfgA = Except.ok ([0, 1/2, 1], [0, 2/5, 4/5]) ∧
    (([0, (1 : ℚ)/2, 1] : List ℚ).length
        = (⌊|cfgA.final_x - cfgA.x0| / |cfgA.h|⌋).toNat + 1 ∧
      ([0, (2 : ℚ)/5, 4/5] : List ℚ).length
        = ([0, (1 : ℚ)/2, 1] : List ℚ).length) :=
  ⟨euler_cfgA, sample_count_truncates Method.euler cfgA _ _ euler_cfgA⟩

/-- C4: `runge2nd(0)` fails with an explicit division-by-zero error (from
`p = 1/(2*a2)`), for every configuration; no Y sequence is returned. -/
theorem runge2nd_zero_a2_zero_division (s : Solver) :
    runge2nd s 0 = Except.error PyErr.zeroDivision := by
  simp [runge2nd]

/-- C5: `heun()`, `ralston()` and `midpoint()` return exactly what
`runge2nd(1/2)`, `runge2nd(2/3)` and `runge2nd(1)` return, for every
configuration — they are wrappers with no independent logic. -/
theorem wrappers_equal_runge2nd (s : Solver) :
    heun s = runge2nd s (1/2) ∧ ralston s = runge2nd s (2/3) ∧
      midpoint s = runge2nd s 1 :=
  ⟨rfl, rfl, rfl⟩

/-- C8: whenever an integration method succeeds, the first element of the
returned Y sequence is the configured boundary y-value `y0`. -/
theorem y_starts_at_boundary (m : Method) (s : Solver) (x y : List ℚ)
    (h : m.run s = .ok (x, y)) : y.head? = some s.y0 := by
  obtain ⟨hh, hx, hy⟩ := run_ok_shape m s x y h
  have hxlen : x.length = nSamples s := by rw [hx, linspace_length]
  have hxne : x ≠ [] := by
    intro hnil
    rw [hnil] at hxlen
    have := one_le_nSamples s
    simp at hxlen
    omega
  rw [hy]
  exact iterY_head _ x s.y0 hxne

theorem y_starts_at_boundary_witness :
    Method.classic4th.run cfgA = Except.ok ([0, 1/2, 1], [0, 2/5, 4/5]) ∧
    ([0, (2 : ℚ)/5, 4/5] : List ℚ).head? = some cfgA.y0 :=
  ⟨classic4th_cfgA,
   y_starts_at_boundary Method.classic4th cfgA _ _ classic4th_cfgA⟩

/-- C10: with step size `h = 0`, every integration method (euler,
`runge2nd` with any `a2 ≠ 0`, heun, ralston, midpoint, classic4th) raises
a division-by-zero error computing the sample count, and no samples are
produced. -/
theorem zero_h_zero_division (s : Solver) (hh : s.h = 0) :
    euler s = Except.error PyErr.zeroDivision ∧
    (∀ a2 : ℚ, a2 ≠ 0 → runge2nd s a2 = Except.error PyErr.zeroDivision) ∧
    heun s = Except.error PyErr.zeroDivision ∧
    ralston s = Except.error PyErr.zeroDivision ∧
    midpoint s = Except.error PyErr.zeroDivision ∧
    classic4th s = Except.error PyErr.zeroDivision := by
  refine ⟨by simp [euler, hh], fun a2 ha => by simp [runge2nd, hh, ha],
    ?_, ?_, ?_, by simp [classic4th, hh]⟩
  all_goals norm_num [heun, ralston, midpoint, runge2nd, hh]

theorem zero_h_zero_division_witness :
    cfgZ.h = 0 ∧ euler cfgZ = Except.error PyErr.zeroDivision ∧
      runge2nd cfgZ 1 = Except.error PyErr.zeroDivision ∧
      classic4th cfgZ = Except.error PyErr.zeroDivision :=
  ⟨rfl, (zero_h_zero_division cfgZ rfl).1,
   (zero_h_zero_division cfgZ rfl).2.1 1 one_ne_zero,
   (zero_h_zero_division cfgZ rfl).2.2.2.2.2⟩

theorem validateLabels_error_of_bad (labels : List String)
    (hbad : ∃ l ∈ labels, methodName l ∉ dirSolver) :
    ∃ bad ∈ labels, methodName bad ∉ dirSolver ∧
      validateLabels labels = Except.error (PyErr.unknownMethod bad) := by
  induction labels with
  | nil => simp at hbad
  | cons i rest ih =>
    by_cases hi : methodName i ∈ dirSolver
    · obtain ⟨l, hl, hlbad⟩ := hbad
      rcases List.mem_cons.mp hl with rfl | hl2
      · exact absurd hi hlbad
      · obtain ⟨bad, hbmem, hbbad, hbval⟩ := ih ⟨l, hl2, hlbad⟩
        refine ⟨bad, List.mem_cons_of_mem _ hbmem, hbbad, ?_⟩
        rw [validateLabels, if_pos hi, hbval]
    · refine ⟨i, List.mem_cons_self _ _, hi, ?_⟩
      rw [validateLabels, if_neg hi]

theorem compare_eq_of_validate_error (s : Solver) (labels : List String)
    (e : PyErr) (h : validateLabels labels = Except.error e) :
    compare s labels = Except.error e := by
  rw [compare, h]

/-- C3: if some label's method name (text before the first `'('`) is not in
`dir(self)`, `compare` fails with the unknown-method error naming an
offending label, for *every* solver configuration — the check runs over
all labels before any evaluation — and, returning an error, it produces
no result mapping at all. -/
theorem compare_unknown_label_fails_fast (s : Solver) (labels : List String)
    (hbad : ∃ l ∈ labels, methodName l ∉ dirSolver) :
    ∃ bad ∈ labels, methodName bad ∉ dirSolver ∧
      compare s labels = Except.error (PyErr.unknownMethod bad) := by
  obtain ⟨bad, hmem, hb, hval⟩ := validateLabels_error_of_bad labels hbad
  exact ⟨bad, hmem, hb, compare_eq_of_validate_error s labels _ hval⟩

theorem compare_unknown_label_fails_fast_witness :
    (∃ l ∈ ["euler()", "bogus_method"], methodName l ∉ dirSolver) ∧
    (∃ bad ∈ ["euler()", "bogus_method"], methodName bad ∉ dirSolver ∧
      compare cfgA ["euler()", "bogus_method"]
        = Except.error (PyErr.unknownMethod bad)) :=
  ⟨⟨"bogus_method", by decide, by decide⟩,
   compare_unknown_label_fails_fast cfgA ["euler()", "bogus_method"]
     ⟨"bogus_method", by decide, by decide⟩⟩

/-- C6 (counterexample): with the bare labels of the claim (no
parentheses), `eval('self.' + label)` yields the bound method itself, not
its result, and `plt.plot(*result, ...)` raises `TypeError` unpacking it:
`compare(["euler", "classic4th"])` errors out instead of returning the
two-key mapping. -/
theorem compare_bare_labels_cex :
    compare cfgA ["euler", "classic4th"]
      = Except.error (PyErr.typeError "euler") := rfl

/-- C6 (amended): with the call-form labels `"euler()"` and
`"classic4th()"`, `compare` succeeds and returns a mapping with exactly
those two keys in argument order, each bound to the same `(X, Y)` pair the
direct method call produces. -/
theorem compare_call_labels (s : Solver) (p q : List ℚ × List ℚ)
    (he : euler s = .ok p) (hc : classic4th s = .ok q) :
    compare s ["euler()", "classic4th()"]
      = Except.ok [("euler()", PyValue.pair p),
                   ("classic4th()", PyValue.pair q)] := by
  have hv : validateLabels ["euler()", "classic4th()"] = Except.ok () := rfl
  have he' : evalLabel s "euler()" = Except.ok (PyValue.pair p) := by
    rw [evalLabel, if_pos rfl, he]
    rfl
  have hc' : evalLabel s "classic4th()" = Except.ok (PyValue.pair q) := by
    rw [evalLabel, if_neg (by decide), if_neg (by decide),
      if_neg (by decide), if_neg (by decide), if_pos rfl, hc]
    rfl
  simp only [compare, hv, runLabels, he', hc', plotArgs]

theorem compare_call_labels_witness :
    euler cfgA = Except.ok ([0, 1/2, 1], [0, 2/5, 4/5]) ∧
    classic4th cfgA = Except.ok ([0, 1/2, 1], [0, 2/5, 4/5]) ∧
    compare cfgA ["euler()", "classic4th()"]
      = Except.ok
          [("euler()", PyValue.pair ([0, 1/2, 1], [0, 2/5, 4/5])),
           ("classic4th()", PyValue.pair ([0, 1/2, 1], [0, 2/5, 4/5]))] :=
  ⟨euler_cfgA, classic4th_cfgA,
   compare_call_labels cfgA _ _ euler_cfgA classic4th_cfgA⟩

/-- C7 (counterexample): on `cfgB` (`x0 = 0`, `final_x = 2/5`, `h = 1`,
all nonzero and sign-consistent) the sample count is `⌊2/5⌋ + 1 = 1`, so
euler returns the single grid point `[x0]` and the last X sample is `0`,
not `final_x = 2/5`. -/
theorem grid_misses_final_x_cex :
    euler cfgB = Except.ok ([0], [0]) ∧ cfgB.h ≠ 0 ∧
      ([0] : List ℚ).getD ((([0] : List ℚ).length) - 1) 0 ≠ cfgB.final_x :=
  ⟨euler_cfgB, by norm_num [cfgB], by norm_num [cfgB]⟩

/-- C7 (amended): every successful run returns X and Y of identical
length with `X[0] = x0`, X has constant spacing
`(final_x - x0)/(n - 1)` between consecutive samples and is strictly
monotonic in the direction of the interval; `X[n-1] = final_x` holds
whenever `|h| ≤ |final_x - x0|` — when the interval is shorter than the
nominal step, the grid degenerates to the single point `[x0]` and misses
`final_x`. -/
theorem grid_spans_interval (m : Method) (s : Solver) (x y : List ℚ)
    (h : m.run s = .ok (x, y)) :
    x.length = y.length ∧
    x.getD 0 0 = s.x0 ∧
    (∀ i : ℕ, i + 1 < x.length →
      x.getD (i + 1) 0 - x.getD i 0
        = (s.final_x - s.x0) / ((x.length : ℚ) - 1)) ∧
    (∀ i : ℕ, i + 1 < x.length →
      (s.x0 < s.final_x → x.getD i 0 < x.getD (i + 1) 0) ∧
      (s.final_x < s.x0 → x.getD (i + 1) 0 < x.getD i 0)) ∧
    (|s.h| ≤ |s.final_x - s.x0| →
      x.getD (x.length - 1) 0 = s.final_x) := by
  obtain ⟨hh, hx, hy⟩ := run_ok_shape m s x y h
  have hlen : x.length = nSamples s := by rw [hx, linspace_length]
  have h1 : 1 ≤ nSamples s := one_le_nSamples s
  have hspace : ∀ i : ℕ, i + 1 < x.length →
      x.getD (i + 1) 0 - x.getD i 0
        = (s.final_x - s.x0) / ((x.length : ℚ) - 1) := by
    intro i hi
    have hn2 : 2 ≤ nSamples s := by omega
    have e1 : x.getD (i + 1) 0
        = s.x0 + ((i + 1 : ℕ) : ℚ)
            * ((s.final_x - s.x0) / ((nSamples s : ℚ) - 1)) := by
      rw [hx]
      exact linspace_getD _ _ _ hn2 _ (by omega)
    have e0 : x.getD i 0
        = s.x0 + (i : ℚ) * ((s.final_x - s.x0) / ((nSamples s : ℚ) - 1)) := by
      rw [hx]
      exact linspace_getD _ _ _ hn2 _ (by omega)
    rw [e1, e0, hlen]
    push_cast
    ring
  refine ⟨?_, ?_, hspace, ?_, ?_⟩
  · rw [hy, iterY_length]
  · rw [hx]
    exact linspace_getD_zero _ _ _ h1
  · intro i hi
    have hn2 : 2 ≤ nSamples s := by omega
    have hden : (0 : ℚ) < (x.length : ℚ) - 1 := by
      have : (2 : ℚ) ≤ (x.length : ℚ) := by
        rw [hlen]
        exact_mod_cast hn2
      linarith
    have hd := hspace i hi
    constructor
    · intro hlt
      have : (0 : ℚ) < (s.final_x - s.x0) / ((x.length : ℚ) - 1) :=
        div_pos (by linarith) hden
      linarith
    · intro hlt
      have : (s.final_x - s.x0) / ((x.length : ℚ) - 1) < 0 :=
        div_neg_of_neg_of_pos (by linarith) hden
      linarith
  · intro hge
    have hn2 : 2 ≤ nSamples s := two_le_nSamples s hh hge
    rw [hx, linspace_length]
    exact linspace_getD_last _ _ _ hn2

theorem grid_spans_interval_witness :
    Method.euler.run cfgA = Except.ok ([0, 1/2, 1], [0, 2/5, 4/5]) ∧
    ([0, (1 : ℚ)/2, 1] : List ℚ).getD 0 0 = cfgA.x0 ∧
    (|cfgA.h| ≤ |cfgA.final_x - cfgA.x0| →
      ([0, (1 : ℚ)/2, 1] : List ℚ).getD
          (([0, (1 : ℚ)/2, 1] : List ℚ).length - 1) 0 = cfgA.final_x) :=
  ⟨euler_cfgA,
   (grid_spans_interval Method.euler cfgA _ _ euler_cfgA).2.1,
   (grid_spans_interval Method.euler cfgA _ _ euler_cfgA).2.2.2.2⟩

/-- C9: `compare`'s validation tests the label's method name against
`dir(self)`, which also contains the non-method attributes `f`, `h`,
`boundary`, `final_x` and the inherited dunder names; labels naming those
pass validation (no unknown-method error) even though they are not
integration operations. -/
theorem dir_accepts_non_method_attrs (a : String)
    (ha : a ∈ ["f", "h", "boundary", "final_x", "__init__", "__class__",
               "__hash__", "__doc__"]) :
    methodName a ∈ dirSolver ∧ a ∉ integrationMethodNames ∧
      validateLabels [a] = Except.ok () := by
  fin_cases ha <;> exact ⟨by decide, by decide, rfl⟩

theorem dir_accepts_non_method_attrs_witness :
    ("f" ∈ ["f", "h", "boundary", "final_x", "__init__", "__class__",
            "__hash__", "__doc__"]) ∧
    (methodName "f" ∈ dirSolver ∧ "f" ∉ integrationMethodNames ∧
      validateLabels ["f"] = Except.ok ()) :=
  ⟨by decide, dir_accepts_non_method_attrs "f" (by decide)⟩

end NumericalODE
